import Mathlib

/-!
A shallow embedding of the GameOfLife repository: the compute-shader
transition kernel (gameoflife.comp), the host-side tick orchestration,
startup control flow, initial-state image loading and the viewport key
callback from GameOfLife.cpp.  GPU floats are modelled as exact
rationals; GLSL `int(float)` conversion truncates toward zero.
-/

namespace GOL

/-- GLSL `int(float)` conversion: truncation toward zero. -/
def ratTrunc (q : ℚ) : ℤ := q.num.tdiv q.den

/-- On nonnegative rationals, truncation toward zero agrees with the floor. -/
theorem ratTrunc_eq_floor (q : ℚ) (h : 0 ≤ q) : ratTrunc q = ⌊q⌋ := by
  unfold ratTrunc
  rw [Int.tdiv_eq_ediv (Rat.num_nonneg.mpr h) (by positivity), Rat.floor_def]

/-- A 2D state texture: dimensions plus per-texel red-channel value.
`data` is only meaningful on `[0,W) × [0,H)`; all reads go through
`imageLoad`, which returns 0 off the grid. -/
structure Grid where
  W : ℕ
  H : ℕ
  data : ℤ → ℤ → ℚ

/-- The in-bounds predicate for a texel coordinate. -/
def Grid.inBounds (g : Grid) (x y : ℤ) : Prop :=
  0 ≤ x ∧ x < (g.W : ℤ) ∧ 0 ≤ y ∧ y < (g.H : ℤ)

instance (g : Grid) (x y : ℤ) : Decidable (g.inBounds x y) := by
  unfold Grid.inBounds; infer_instance

/-- GLSL `imageLoad`: an out-of-bounds texel fetch returns all zeros
(the dead boundary sentinel); in bounds it returns the stored texel. -/
def imageLoad (g : Grid) (x y : ℤ) : ℚ :=
  if g.inBounds x y then g.data x y else 0

/-- The eight-neighbour count of `gameoflife.comp`: each neighbour's
red channel is converted with `int(...)` (truncation toward zero) and
the results are summed, in the order the shader reads them. -/
def countOf (f : ℤ → ℤ → ℚ) (x y : ℤ) : ℤ :=
  ratTrunc (f (x - 1) (y - 1)) + ratTrunc (f x (y - 1)) + ratTrunc (f (x + 1) (y - 1)) +
  ratTrunc (f (x - 1) y) + ratTrunc (f (x + 1) y) +
  ratTrunc (f (x - 1) (y + 1)) + ratTrunc (f x (y + 1)) + ratTrunc (f (x + 1) (y + 1))

/-- The branchless state update of `gameoflife.comp`:
`pixel = 1 * (max(1 - abs(n-3), 0) + oldState.x * max(1 - abs(n-2), 0))`,
where the two `max` terms are `int` arithmetic promoted to float when
multiplied by `oldState.x`. -/
def ruleOf (f : ℤ → ℤ → ℚ) (x y : ℤ) : ℚ :=
  1 * (((max (1 - |countOf f x y - 3|) 0 : ℤ) : ℚ) +
       f x y * ((max (1 - |countOf f x y - 2|) 0 : ℤ) : ℚ))

/-- `numNeighbours` as computed by one shader invocation at `(x, y)`. -/
def numNeighbours (g : Grid) (x y : ℤ) : ℤ :=
  countOf (fun a b => imageLoad g a b) x y

/-- The value one shader invocation at `(x, y)` stores into the output
texture. -/
def kernelCell (g : Grid) (x y : ℤ) : ℚ :=
  ruleOf (fun a b => imageLoad g a b) x y

/-- The configured board width (`gridWidth` in GameOfLife.cpp). -/
def gridWidth : ℕ := 400

/-- The configured board height (`gridHeight` in GameOfLife.cpp). -/
def gridHeight : ℕ := 400

/-- The compute dispatch of `simulationTick`: one kernel invocation per
`(x, y)` in `[0, w) × [0, h)`, every invocation reading the input texture
and writing its own output texel.  Texels outside the dispatched range
keep the (blank) output texture's value, modelled as 0. -/
def dispatchCompute (g : Grid) (w h : ℕ) : Grid :=
  ⟨g.W, g.H, fun x y =>
    if 0 ≤ x ∧ x < (w : ℤ) ∧ 0 ≤ y ∧ y < (h : ℤ) then kernelCell g x y else 0⟩

/-- `glCopyImageSubData`: copy the `w × h` region at the origin of `src`
over the same region of `dst`. -/
def copyImageSubData (src dst : Grid) (w h : ℕ) : Grid :=
  ⟨dst.W, dst.H, fun x y =>
    if 0 ≤ x ∧ x < (w : ℤ) ∧ 0 ≤ y ∧ y < (h : ℤ) then src.data x y else dst.data x y⟩

/-- The two textures the host ping-pongs between: the compute shader
reads `input` (binding 0) and writes `output` (binding 1). -/
structure SimState where
  input : Grid
  output : Grid

/-- `simulationTick` from GameOfLife.cpp: dispatch the compute shader
over the whole board, wait on the memory barrier, then copy the output
texture back over the input texture (and wait again).  The dispatch and
copy extents are the board dimensions, which equal the texture
dimensions of the program's actual state. -/
def simulationTick (s : SimState) : SimState :=
  let out := dispatchCompute s.input s.input.W s.input.H
  { input := copyImageSubData out s.input s.input.W s.input.H, output := out }

/-- An all-dead (blank) texture of the given dimensions. -/
def blankGrid (w h : ℕ) : Grid := ⟨w, h, fun _ _ => 0⟩

end GOL

namespace GOL

/-! ### Startup control flow of `main` (GameOfLife.cpp) -/

/-- The external conditions `main`'s startup sequence depends on:
whether GLFW initialises, whether each shader compiles, whether each
program links, and what `stbi_load` returns for the initial-state image
(`none` when the file is missing or unreadable, otherwise the decoded
width, height and channel count). -/
structure InitEnv where
  glfwInitOk : Bool
  vertCompileOk : Bool
  fragCompileOk : Bool
  compCompileOk : Bool
  renderLinkOk : Bool
  computeLinkOk : Bool
  image : Option (ℤ × ℤ × ℤ)

/-- The diagnostics `main` (and its helpers) print during startup. -/
inductive StartupEvent where
  | glfwFailed
  | shaderCompileError
  | shaderLinkError
  | couldNotRead
  | wrongDims (expW expH expC gotW gotH gotC : ℤ)
deriving DecidableEq

/-- How startup ends: an early `return` with an exit code, or falling
through into the render/tick loop. -/
inductive StartupResult where
  | exited (code : ℤ)
  | reachedLoop
deriving DecidableEq

/-- The startup control flow of `main`, read off GameOfLife.cpp line by
line: a GLFW failure returns -1; `loadCompileShader` prints a diagnostic
and returns -1 on failure but `main` never inspects that value;
`createLinkProgram` prints a diagnostic on failure and returns the
program regardless; a missing image returns 1; an image whose decoded
dimensions or channel count differ from `gridWidth × gridHeight × 3`
prints the expected and actual dimensions and returns 1; otherwise
control reaches the render loop, which runs `simulationTick`. -/
def mainStartup (e : InitEnv) : List StartupEvent × StartupResult :=
  if !e.glfwInitOk then ([.glfwFailed], .exited (-1))
  else
    let compileLog : List StartupEvent :=
      (if e.vertCompileOk then [] else [.shaderCompileError]) ++
      (if e.fragCompileOk then [] else [.shaderCompileError]) ++
      (if e.compCompileOk then [] else [.shaderCompileError])
    let linkLog : List StartupEvent :=
      (if e.renderLinkOk then [] else [.shaderLinkError]) ++
      (if e.computeLinkOk then [] else [.shaderLinkError])
    match e.image with
    | none => (compileLog ++ linkLog ++ [.couldNotRead], .exited 1)
    | some (w, h, c) =>
      if w ≠ (gridWidth : ℤ) ∨ h ≠ (gridHeight : ℤ) ∨ c ≠ 3 then
        (compileLog ++ linkLog ++
          [.wrongDims (gridWidth : ℤ) (gridHeight : ℤ) 3 w h c], .exited 1)
      else
        (compileLog ++ linkLog, .reachedLoop)

/-! ### Initial-state image loading -/

/-- A decoded 3-channel, 8-bit image in standard top-down row order:
`bytes i` is the i-th byte of the pixel stream (3 bytes per pixel,
rows of `3*W` bytes, red channel first). -/
structure RGBImage where
  W : ℕ
  H : ℕ
  bytes : ℕ → ℕ

/-- The byte-index remapping performed by
`stbi_set_flip_vertically_on_load(true)`: the decoded buffer's row `r`
holds the file's row `H - 1 - r`. -/
def flipIndex (w h i : ℕ) : ℕ := (h - 1 - i / (3 * w)) * (3 * w) + i % (3 * w)

/-- The buffer `stbi_load` hands to `main` with vertical flipping on. -/
def stbiLoadFlipped (img : RGBImage) : ℕ → ℕ :=
  fun i => img.bytes (flipIndex img.W img.H i)

/-- `glTexImage2D(GL_TEXTURE_2D, 0, GL_RGBA32F, w, h, 0, GL_RGB,
GL_UNSIGNED_BYTE, bytes)`: texel `(x, y)`'s red channel becomes byte
`(y*w + x)*3` of the client buffer, normalised from `[0,255]` to a
`[0,1]` float as `v / 255`.  (Rows are tightly packed: `3*w` is a
multiple of the default unpack alignment for the program's `w = 400`.) -/
def texImageRGB8 (w h : ℕ) (bytes : ℕ → ℕ) : Grid :=
  ⟨w, h, fun x y =>
    if 0 ≤ x ∧ x < (w : ℤ) ∧ 0 ≤ y ∧ y < (h : ℤ) then
      (bytes ((y.toNat * w + x.toNat) * 3) : ℚ) / 255
    else 0⟩

/-- The whole initial-state load path of `main`: flipped stbi decode fed
to `glTexImage2D` on the input texture. -/
def loadInitialState (img : RGBImage) : Grid :=
  texImageRGB8 img.W img.H (stbiLoadFlipped img)

/-! ### Viewport key callback -/

/-- The keys `key_callback` dispatches on (`other` stands for every key
without a case in the switch). -/
inductive VKey where
  | w | a | s | d | space | equal | minus | t | other
deriving DecidableEq

/-- GLFW key actions. -/
inductive VAction where
  | press | rep | release
deriving DecidableEq

/-- The host-side state `key_callback` mutates.  The float globals
`currentXOffset`, `currentYOffset`, `currentScale` are modelled as exact
rationals. -/
structure ViewState where
  xOff : ℚ
  yOff : ℚ
  scale : ℚ
  running : Bool
deriving DecidableEq

/-- The initial values of the globals in GameOfLife.cpp. -/
def initialViewState : ViewState := ⟨0, 0, 1, true⟩

/-- `key_callback` from GameOfLife.cpp: ignore everything but press and
repeat events, apply the per-key increment (W/A/S/D pan by 0.01, the
minus and equal keys zoom by 0.1, space toggles the run flag, T ticks
the simulation and
leaves the viewport alone), then reset a non-positive scale to 0.1. -/
def key_callback (st : ViewState) (key : VKey) (action : VAction) : ViewState :=
  if action ≠ .press ∧ action ≠ .rep then st
  else
    let st1 : ViewState :=
      match key with
      | .w => { st with yOff := st.yOff + 1/100 }
      | .s => { st with yOff := st.yOff - 1/100 }
      | .a => { st with xOff := st.xOff - 1/100 }
      | .d => { st with xOff := st.xOff + 1/100 }
      | .space => { st with running := !st.running }
      | .equal => { st with scale := st.scale + 1/10 }
      | .minus => { st with scale := st.scale - 1/10 }
      | .t => st
      | .other => st
    if st1.scale ≤ 0 then { st1 with scale := 1/10 } else st1

/-- Fold a sequence of key events through `key_callback`. -/
def runKeys (evs : List (VKey × VAction)) : ViewState :=
  evs.foldl (fun s e => key_callback s e.1 e.2) initialViewState

/-! ### Pattern grids -/

/-- A horizontal blinker: three adjacent live cells `(cx-1, cy)`,
`(cx, cy)`, `(cx+1, cy)` in an otherwise empty `w × h` board. -/
def hBlinker (w h : ℕ) (cx cy : ℤ) : Grid :=
  ⟨w, h, fun x y => if y = cy ∧ (x = cx - 1 ∨ x = cx ∨ x = cx + 1) then 1 else 0⟩

/-- The horizontal three-cell indicator centred at the origin. -/
def ind3h (a b : ℤ) : ℚ := if b = 0 ∧ (a = -1 ∨ a = 0 ∨ a = 1) then 1 else 0

/-- The vertical three-cell indicator centred at the origin. -/
def ind3v (a b : ℤ) : ℚ := if a = 0 ∧ (b = -1 ∨ b = 0 ∨ b = 1) then 1 else 0

/-- A board holding a single live cell at the corner `(0, 0)`. -/
def cornerGrid : Grid := ⟨3, 3, fun x y => if x = 0 ∧ y = 0 then 1 else 0⟩

/-- The kernel's closed-form update, abstracted over the cell's own
state and the neighbour count. -/
def branchlessRule (self : ℚ) (n : ℤ) : ℚ :=
  ((max (1 - |n - 3|) 0 : ℤ) : ℚ) + self * ((max (1 - |n - 2|) 0 : ℤ) : ℚ)

/-- Modelled from the spec: the branching reference truth table
`{n=3 → alive; n=2 → unchanged; else → dead}`. -/
def referenceRule (self : ℚ) (n : ℤ) : ℚ :=
  if n = 3 then 1 else if n = 2 then self else 0

end GOL

namespace GOL

/-! ### Helper lemmas -/

lemma ruleOf_eq_branchless (f : ℤ → ℤ → ℚ) (x y : ℤ) :
    ruleOf f x y = branchlessRule (f x y) (countOf f x y) := by
  unfold ruleOf branchlessRule
  ring

lemma branchlessRule_eval (self : ℚ) (n : ℤ) :
    branchlessRule self n =
      ((max (1 - |n - 3|) 0 : ℤ) : ℚ) + self * ((max (1 - |n - 2|) 0 : ℤ) : ℚ) := rfl

lemma numNeighbours_eq (g : Grid) (x y : ℤ) :
    numNeighbours g x y =
      ratTrunc (imageLoad g (x - 1) (y - 1)) + ratTrunc (imageLoad g x (y - 1)) +
      ratTrunc (imageLoad g (x + 1) (y - 1)) + ratTrunc (imageLoad g (x - 1) y) +
      ratTrunc (imageLoad g (x + 1) y) + ratTrunc (imageLoad g (x - 1) (y + 1)) +
      ratTrunc (imageLoad g x (y + 1)) + ratTrunc (imageLoad g (x + 1) (y + 1)) := rfl

lemma kernelCell_of_count (g : Grid) (x y n : ℤ) (h : numNeighbours g x y = n) :
    kernelCell g x y = branchlessRule (imageLoad g x y) n := by
  have hk : kernelCell g x y =
      branchlessRule (imageLoad g x y) (numNeighbours g x y) :=
    ruleOf_eq_branchless (fun a b => imageLoad g a b) x y
  rw [hk, h]

lemma tick_input_data (s : SimState) (x y : ℤ) (hb : s.input.inBounds x y) :
    (simulationTick s).input.data x y = kernelCell s.input x y := by
  obtain ⟨h1, h2, h3, h4⟩ := hb
  simp [simulationTick, copyImageSubData, dispatchCompute, h1, h2, h3, h4]

lemma ratTrunc_bounds (q : ℚ) (h0 : 0 ≤ q) (h1 : q ≤ 1) :
    0 ≤ ratTrunc q ∧ ratTrunc q ≤ 1 := by
  rw [ratTrunc_eq_floor q h0]
  constructor
  · exact Int.le_floor.mpr (by exact_mod_cast h0)
  · have : ⌊q⌋ ≤ ⌊(1 : ℚ)⌋ := Int.floor_le_floor h1
    simpa using this

lemma imageLoad_bounds (g : Grid) (hv : ∀ x y : ℤ, 0 ≤ g.data x y ∧ g.data x y ≤ 1)
    (x y : ℤ) : 0 ≤ imageLoad g x y ∧ imageLoad g x y ≤ 1 := by
  unfold imageLoad
  split
  · exact hv x y
  · norm_num

end GOL

namespace GOL

/-- C1: on any grid of exactly-0/1 cells, at any in-bounds cell, the
kernel output obeys the Game of Life truth table: 3 live neighbours
give a live cell regardless of its own state, 2 live neighbours keep
the cell's state, and any other neighbour count in [0,8] kills it. -/
theorem kernel_truth_table (g : Grid)
    (hv : ∀ x y : ℤ, g.data x y = 0 ∨ g.data x y = 1)
    (x y : ℤ) (hb : g.inBounds x y) :
    (numNeighbours g x y = 3 → kernelCell g x y = 1) ∧
    (numNeighbours g x y = 2 → kernelCell g x y = imageLoad g x y) ∧
    ((numNeighbours g x y = 0 ∨ numNeighbours g x y = 1 ∨ numNeighbours g x y = 4 ∨
      numNeighbours g x y = 5 ∨ numNeighbours g x y = 6 ∨ numNeighbours g x y = 7 ∨
      numNeighbours g x y = 8) → kernelCell g x y = 0) := by
  have hk : kernelCell g x y =
      branchlessRule (imageLoad g x y) (numNeighbours g x y) :=
    ruleOf_eq_branchless (fun a b => imageLoad g a b) x y
  refine ⟨?_, ?_, ?_⟩ <;> intro h
  · rw [hk, h, branchlessRule_eval]
    norm_num
  · rw [hk, h, branchlessRule_eval]
    norm_num
  · rcases h with h | h | h | h | h | h | h <;>
      · rw [hk, h, branchlessRule_eval]
        norm_num

/-- C1 witness: the truth table instantiated on the single-corner-cell
board at `(0, 0)`, which has zero live neighbours and dies. -/
theorem kernel_truth_table_witness :
    numNeighbours cornerGrid 0 0 = 0 ∧ kernelCell cornerGrid 0 0 = 0 := by
  have hv : ∀ x y : ℤ, cornerGrid.data x y = 0 ∨ cornerGrid.data x y = 1 := by
    intro x y
    unfold cornerGrid
    dsimp only
    split <;> simp
  have hb : cornerGrid.inBounds 0 0 := by decide
  have hn : numNeighbours cornerGrid 0 0 = 0 := by decide
  exact ⟨hn, (kernel_truth_table cornerGrid hv 0 0 hb).2.2 (Or.inl hn)⟩

/-- C2: the branchless closed form
`max(1 - abs(n-3), 0) + self * max(1 - abs(n-2), 0)` is exactly the
expression the kernel evaluates, and for `self` in {0,1} and every
neighbour count `n` in [0,8] it equals the branching reference rule:
1 when n = 3, `self` when n = 2, 0 otherwise. -/
theorem branchless_matches_reference :
    (∀ (f : ℤ → ℤ → ℚ) (x y : ℤ),
      ruleOf f x y = branchlessRule (f x y) (countOf f x y)) ∧
    (∀ (self : ℚ) (n : ℤ), (self = 0 ∨ self = 1) → 0 ≤ n → n ≤ 8 →
      branchlessRule self n = referenceRule self n) := by
  refine ⟨ruleOf_eq_branchless, ?_⟩
  intro self n hs h0 h8
  interval_cases n <;> rcases hs with rfl | rfl <;>
    norm_num [branchlessRule, referenceRule]

/-- C2 witness: the equivalence evaluated at `self = 1`, `n = 3`. -/
theorem branchless_matches_reference_witness :
    ((1 : ℚ) = 0 ∨ (1 : ℚ) = 1) ∧ (0 : ℤ) ≤ 3 ∧ (3 : ℤ) ≤ 8 ∧
    branchlessRule 1 3 = referenceRule 1 3 :=
  ⟨Or.inr rfl, by norm_num, by norm_num,
    branchless_matches_reference.2 1 3 (Or.inr rfl) (by norm_num) (by norm_num)⟩

/-- C3: one `simulationTick` advances the state by exactly one
generation: the new input ("current") texture has the same dimensions
and holds, cell for cell, the kernel applied to the previous input
texture, so the next tick's reads observe this generation's result. -/
theorem tick_advances_one_generation (s : SimState) :
    ((simulationTick s).input.W = s.input.W ∧
     (simulationTick s).input.H = s.input.H) ∧
    (∀ x y : ℤ, s.input.inBounds x y →
      (simulationTick s).input.data x y = kernelCell s.input x y) := by
  exact ⟨⟨rfl, rfl⟩, fun x y hb => tick_input_data s x y hb⟩

/-- C3 witness: the tick applied to the corner-cell board, evaluated at
the corner cell. -/
theorem tick_advances_one_generation_witness :
    cornerGrid.inBounds 0 0 ∧
    (simulationTick ⟨cornerGrid, blankGrid 3 3⟩).input.data 0 0 =
      kernelCell cornerGrid 0 0 :=
  ⟨by decide,
    (tick_advances_one_generation ⟨cornerGrid, blankGrid 3 3⟩).2 0 0 (by decide)⟩

/-- C4: every out-of-bounds neighbour lookup returns the dead sentinel
0 (and so contributes 0 to the neighbour count), with no wraparound;
and an otherwise-isolated live corner cell is dead after one tick. -/
theorem boundary_dead_sentinel :
    (∀ (g : Grid) (x y : ℤ), ¬ g.inBounds x y →
      imageLoad g x y = 0 ∧ ratTrunc (imageLoad g x y) = 0) ∧
    (simulationTick ⟨cornerGrid, blankGrid 3 3⟩).input.data 0 0 = 0 := by
  constructor
  · intro g x y h
    have hz : imageLoad g x y = 0 := by
      unfold imageLoad
      rw [if_neg h]
    exact ⟨hz, by rw [hz]; decide⟩
  · rw [tick_input_data ⟨cornerGrid, blankGrid 3 3⟩ 0 0 (by decide)]
    rw [kernelCell_of_count cornerGrid 0 0 0 (by decide)]
    rw [show imageLoad cornerGrid 0 0 = 1 from by decide]
    norm_num [branchlessRule]

/-- C4 witness: the sentinel lemma applied to the lookup at `(-1, 0)`
just left of the corner board. -/
theorem boundary_dead_sentinel_witness :
    ¬ cornerGrid.inBounds (-1) 0 ∧ imageLoad cornerGrid (-1) 0 = 0 :=
  ⟨by decide, (boundary_dead_sentinel.1 cornerGrid (-1) 0 (by decide)).1⟩

/-- C10: the kernel truncates each neighbour's stored value toward zero
before summing: a value strictly between 0 and 1 contributes 0, and on
a buffer of values in [0,1] the neighbour count is an integer in
[0,8]. -/
theorem neighbor_trunc_bounds :
    (∀ q : ℚ, 0 < q → q < 1 → ratTrunc q = 0) ∧
    (∀ g : Grid, (∀ x y : ℤ, 0 ≤ g.data x y ∧ g.data x y ≤ 1) →
      ∀ x y : ℤ, 0 ≤ numNeighbours g x y ∧ numNeighbours g x y ≤ 8) := by
  constructor
  · intro q h0 h1
    rw [ratTrunc_eq_floor q h0.le]
    exact Int.floor_eq_zero_iff.mpr ⟨h0.le, h1⟩
  · intro g hv x y
    have B : ∀ a b : ℤ,
        0 ≤ ratTrunc (imageLoad g a b) ∧ ratTrunc (imageLoad g a b) ≤ 1 :=
      fun a b => ratTrunc_bounds _ (imageLoad_bounds g hv a b).1 (imageLoad_bounds g hv a b).2
    have b1 := B (x - 1) (y - 1)
    have b2 := B x (y - 1)
    have b3 := B (x + 1) (y - 1)
    have b4 := B (x - 1) y
    have b5 := B (x + 1) y
    have b6 := B (x - 1) (y + 1)
    have b7 := B x (y + 1)
    have b8 := B (x + 1) (y + 1)
    rw [numNeighbours_eq]
    omega

/-- C10 witness: a half-alive value truncates to a zero contribution. -/
theorem neighbor_trunc_bounds_witness :
    (0 : ℚ) < 1/2 ∧ (1/2 : ℚ) < 1 ∧ ratTrunc (1/2) = 0 :=
  ⟨by norm_num, by norm_num, neighbor_trunc_bounds.1 (1/2) (by norm_num) (by norm_num)⟩

/-- A startup environment where everything succeeds except compiling
the compute (kernel) shader. -/
def envCompileFail : InitEnv := ⟨true, true, true, false, true, true, some (400, 400, 3)⟩

/-- A startup environment where the initial-state image is missing. -/
def envImageMissing : InitEnv := ⟨true, true, true, true, true, true, none⟩

/-- A startup environment where the image decodes to 200 × 400 × 3
instead of the configured 400 × 400 × 3. -/
def envWrongDims : InitEnv := ⟨true, true, true, true, true, true, some (200, 400, 3)⟩

/-- C5 counterexample: when the kernel shader fails to compile (and
everything else succeeds), `main` prints the compile diagnostic but
still falls through into the render loop — the process does not abort
before ticks are attempted, contradicting the claim. -/
theorem shader_failure_abort_counterexample :
    StartupEvent.shaderCompileError ∈ (mainStartup envCompileFail).1 ∧
    (mainStartup envCompileFail).2 = StartupResult.reachedLoop := by decide

/-- C5 amended: a shader compile or link failure is reported (the
diagnostic is printed), but it is not fatal — whether startup reaches
the tick loop is exactly the same as in a run with no shader failure. -/
theorem shader_failure_not_fatal (e : InitEnv) (hg : e.glfwInitOk = true) :
    ((e.compCompileOk = false →
        StartupEvent.shaderCompileError ∈ (mainStartup e).1) ∧
     (e.computeLinkOk = false →
        StartupEvent.shaderLinkError ∈ (mainStartup e).1)) ∧
    (mainStartup e).2 =
      (mainStartup
        { e with
            vertCompileOk := true
            fragCompileOk := true
            compCompileOk := true
            renderLinkOk := true
            computeLinkOk := true }).2 := by
  obtain ⟨g, v, f, c, rl, cl, img⟩ := e
  cases g
  · simp at hg
  · rcases img with _ | ⟨w, h, ch⟩ <;>
      cases v <;> cases f <;> cases c <;> cases rl <;> cases cl <;>
        simp [mainStartup] <;> split_ifs <;> simp

/-- C5 amended witness: the amended statement evaluated on
`envCompileFail`. -/
theorem shader_failure_not_fatal_witness :
    envCompileFail.glfwInitOk = true ∧
    (envCompileFail.compCompileOk = false →
      StartupEvent.shaderCompileError ∈ (mainStartup envCompileFail).1) :=
  ⟨rfl, (shader_failure_not_fatal envCompileFail rfl).1.1⟩

/-- C6: a missing initial-state image, or one whose decoded width,
height or channel count differs from the configured 400 × 400 × 3,
makes `main` report the error (for a size mismatch, with both the
expected and the actual dimensions) and return with exit code 1,
never reaching the tick loop. -/
theorem init_image_validation :
    (∀ e : InitEnv, e.glfwInitOk = true → e.image = none →
      StartupEvent.couldNotRead ∈ (mainStartup e).1 ∧
      (mainStartup e).2 = StartupResult.exited 1) ∧
    (∀ (e : InitEnv) (w h c : ℤ), e.glfwInitOk = true → e.image = some (w, h, c) →
      (w ≠ (gridWidth : ℤ) ∨ h ≠ (gridHeight : ℤ) ∨ c ≠ 3) →
      StartupEvent.wrongDims (gridWidth : ℤ) (gridHeight : ℤ) 3 w h c ∈
        (mainStartup e).1 ∧
      (mainStartup e).2 = StartupResult.exited 1) := by
  constructor
  · intro e hg himg
    obtain ⟨g, v, f, c, rl, cl, img⟩ := e
    cases g
    · simp at hg
    · simp only at himg
      subst himg
      cases v <;> cases f <;> cases c <;> cases rl <;> cases cl <;> simp [mainStartup]
  · intro e w h ch hg himg hne
    obtain ⟨g, v, f, c, rl, cl, img⟩ := e
    cases g
    · simp at hg
    · simp only at himg
      subst himg
      cases v <;> cases f <;> cases c <;> cases rl <;> cases cl <;>
        simp [mainStartup, if_pos hne]

/-- C6 witness: the validation applied to a missing image and to a
200 × 400 × 3 image. -/
theorem init_image_validation_witness :
    (StartupEvent.couldNotRead ∈ (mainStartup envImageMissing).1 ∧
     (mainStartup envImageMissing).2 = StartupResult.exited 1) ∧
    (StartupEvent.wrongDims (gridWidth : ℤ) (gridHeight : ℤ) 3 200 400 3 ∈
       (mainStartup envWrongDims).1 ∧
     (mainStartup envWrongDims).2 = StartupResult.exited 1) :=
  ⟨init_image_validation.1 envImageMissing rfl rfl,
   init_image_validation.2 envWrongDims 200 400 3 rfl rfl (by norm_num [gridWidth])⟩

end GOL

namespace GOL

lemma flipIndex_eval (w h x y : ℕ) (hx : x < w) (hy : y < h) :
    flipIndex w h ((y * w + x) * 3) = ((h - 1 - y) * w + x) * 3 := by
  have hw : 0 < 3 * w := by omega
  unfold flipIndex
  have h1 : (y * w + x) * 3 = 3 * w * y + 3 * x := by ring
  have hdiv : (y * w + x) * 3 / (3 * w) = y := by
    rw [h1, Nat.mul_add_div hw, Nat.div_eq_of_lt (by omega)]
    omega
  have hmod : (y * w + x) * 3 % (3 * w) = 3 * x := by
    rw [h1, Nat.mul_add_mod, Nat.mod_eq_of_lt (by omega)]
  rw [hdiv, hmod]
  ring

/-- C8: the initial-state loader does no thresholding and flips rows:
for every in-range pixel of a decoded 3-channel image, the cell
`(x, y)` of the loaded "current" buffer holds exactly the 8-bit red
channel byte of the file's row `H - 1 - y`, normalised to `[0,1]` as
`v / 255` and stored as-is. -/
theorem loader_stores_bytes_flipped (img : RGBImage) (x y : ℕ)
    (hx : x < img.W) (hy : y < img.H) :
    (loadInitialState img).data (x : ℤ) (y : ℤ) =
      (img.bytes (((img.H - 1 - y) * img.W + x) * 3) : ℚ) / 255 := by
  unfold loadInitialState texImageRGB8 stbiLoadFlipped
  dsimp only
  rw [if_pos ⟨by positivity, by exact_mod_cast hx, by positivity, by exact_mod_cast hy⟩]
  rw [Int.toNat_natCast, Int.toNat_natCast, flipIndex_eval img.W img.H x y hx hy]

/-- A small concrete image: 2 × 2, bytes numbered consecutively, so
every pixel value is distinct and non-binary. -/
def img2 : RGBImage := ⟨2, 2, fun i => i⟩

/-- C8 witness: on `img2`, cell `(0, 0)` receives byte 6 (the red
channel of the bottom row's first pixel) as the non-binary value
`6/255`. -/
theorem loader_stores_bytes_flipped_witness :
    (0 < img2.W ∧ 0 < img2.H) ∧
    (loadInitialState img2).data ((0 : ℕ) : ℤ) ((0 : ℕ) : ℤ) =
      (img2.bytes (((img2.H - 1 - 0) * img2.W + 0) * 3) : ℚ) / 255 ∧
    img2.bytes (((img2.H - 1 - 0) * img2.W + 0) * 3) = 6 :=
  ⟨⟨by norm_num [img2], by norm_num [img2]⟩,
    loader_stores_bytes_flipped img2 0 0 (by norm_num [img2]) (by norm_num [img2]),
    rfl⟩

end GOL

namespace GOL

lemma key_callback_scale_pos (st : ViewState) (k : VKey) (a : VAction)
    (h : 0 < st.scale) : 0 < (key_callback st k a).scale := by
  unfold key_callback
  split
  · exact h
  · dsimp only
    split_ifs with hle
    · norm_num
    · exact lt_of_not_le hle

lemma foldl_scale_pos (evs : List (VKey × VAction)) :
    ∀ st : ViewState, 0 < st.scale →
      0 < (evs.foldl (fun s e => key_callback s e.1 e.2) st).scale := by
  induction evs with
  | nil => intro st h; exact h
  | cons e t ih => intro st h; exact ih _ (key_callback_scale_pos st e.1 e.2 h)

/-- C9: every `key_callback` invocation changes the pan offsets only by
0 or ±0.01 and the scale only by 0 or ±0.1 (or the 0.1 reset), a
positive scale stays positive across a call, and after any sequence of
key events from the initial state the scale is strictly positive. -/
theorem viewport_key_invariants :
    (∀ (st : ViewState) (k : VKey) (a : VAction),
      ((key_callback st k a).xOff = st.xOff ∨
       (key_callback st k a).xOff = st.xOff + 1/100 ∨
       (key_callback st k a).xOff = st.xOff - 1/100) ∧
      ((key_callback st k a).yOff = st.yOff ∨
       (key_callback st k a).yOff = st.yOff + 1/100 ∨
       (key_callback st k a).yOff = st.yOff - 1/100) ∧
      ((key_callback st k a).scale = st.scale ∨
       (key_callback st k a).scale = st.scale + 1/10 ∨
       (key_callback st k a).scale = st.scale - 1/10 ∨
       (key_callback st k a).scale = 1/10)) ∧
    (∀ (st : ViewState) (k : VKey) (a : VAction),
      0 < st.scale → 0 < (key_callback st k a).scale) ∧
    (∀ evs : List (VKey × VAction), 0 < (runKeys evs).scale) := by
  refine ⟨?_, key_callback_scale_pos, ?_⟩
  · intro st k a
    unfold key_callback
    split
    · simp
    · cases k <;> dsimp only <;> split_ifs <;> simp
  · intro evs
    exact foldl_scale_pos evs initialViewState (by norm_num [initialViewState])

/-- C9 witness: the per-call invariants evaluated on a minus-key press
from the initial state. -/
theorem viewport_key_invariants_witness :
    0 < initialViewState.scale ∧
    0 < (key_callback initialViewState VKey.minus VAction.press).scale :=
  ⟨by norm_num [initialViewState],
    viewport_key_invariants.2.1 initialViewState VKey.minus VAction.press
      (by norm_num [initialViewState])⟩

end GOL

namespace GOL

/-! ### Blinker dynamics -/

lemma branchlessRule_eq_referenceRule (self : ℚ) (n : ℤ) :
    branchlessRule self n = referenceRule self n := by
  unfold branchlessRule referenceRule
  by_cases h3 : n = 3
  · subst h3; norm_num
  · by_cases h2 : n = 2
    · subst h2; norm_num
    · have a3 : 1 ≤ |n - 3| := Int.one_le_abs (sub_ne_zero.mpr h3)
      have a2 : 1 ≤ |n - 2| := Int.one_le_abs (sub_ne_zero.mpr h2)
      rw [max_eq_right (by omega : 1 - |n - 3| ≤ 0),
          max_eq_right (by omega : 1 - |n - 2| ≤ 0), if_neg h3, if_neg h2]
      push_cast
      ring

lemma ind3h_zero (a b : ℤ) (h : ¬(b = 0 ∧ (a = -1 ∨ a = 0 ∨ a = 1))) :
    ind3h a b = 0 := if_neg h

lemma ind3v_zero (a b : ℤ) (h : ¬(a = 0 ∧ (b = -1 ∨ b = 0 ∨ b = 1))) :
    ind3v a b = 0 := if_neg h

lemma ruleOf_congr (f g : ℤ → ℤ → ℚ) (h : ∀ a b : ℤ, f a b = g a b) (x y : ℤ) :
    ruleOf f x y = ruleOf g x y := by
  unfold ruleOf countOf
  simp only [h]

lemma countOf_shift (f : ℤ → ℤ → ℚ) (c d p q : ℤ) :
    countOf (fun u v => f (u - c) (v - d)) (c + p) (d + q) = countOf f p q := by
  unfold countOf
  dsimp only
  rw [(by ring : c + p - 1 - c = p - 1), (by ring : d + q - 1 - d = q - 1),
      (by ring : c + p - c = p), (by ring : d + q - d = q),
      (by ring : c + p + 1 - c = p + 1), (by ring : d + q + 1 - d = q + 1)]

lemma refRule_ind3h (p q : ℤ) :
    referenceRule (ind3h p q) (countOf ind3h p q) = ind3v p q := by
  by_cases hn : -2 ≤ p ∧ p ≤ 2 ∧ -2 ≤ q ∧ q ≤ 2
  · obtain ⟨h1, h2, h3, h4⟩ := hn
    interval_cases p <;> interval_cases q <;> decide
  · have t : ∀ u v : ℤ, ¬(v = 0 ∧ (u = -1 ∨ u = 0 ∨ u = 1)) →
        ratTrunc (ind3h u v) = 0 := by
      intro u v h
      rw [ind3h_zero u v h]
      decide
    have hcount : countOf ind3h p q = 0 := by
      unfold countOf
      rw [t (p - 1) (q - 1) (by omega), t p (q - 1) (by omega),
          t (p + 1) (q - 1) (by omega), t (p - 1) q (by omega),
          t (p + 1) q (by omega), t (p - 1) (q + 1) (by omega),
          t p (q + 1) (by omega), t (p + 1) (q + 1) (by omega)]
      decide
    have hself : ind3h p q = 0 := ind3h_zero p q (by omega)
    rw [hcount, hself, ind3v_zero p q (by omega)]
    decide

lemma refRule_ind3v (p q : ℤ) :
    referenceRule (ind3v p q) (countOf ind3v p q) = ind3h p q := by
  by_cases hn : -2 ≤ p ∧ p ≤ 2 ∧ -2 ≤ q ∧ q ≤ 2
  · obtain ⟨h1, h2, h3, h4⟩ := hn
    interval_cases p <;> interval_cases q <;> decide
  · have t : ∀ u v : ℤ, ¬(u = 0 ∧ (v = -1 ∨ v = 0 ∨ v = 1)) →
        ratTrunc (ind3v u v) = 0 := by
      intro u v h
      rw [ind3v_zero u v h]
      decide
    have hcount : countOf ind3v p q = 0 := by
      unfold countOf
      rw [t (p - 1) (q - 1) (by omega), t p (q - 1) (by omega),
          t (p + 1) (q - 1) (by omega), t (p - 1) q (by omega),
          t (p + 1) q (by omega), t (p - 1) (q + 1) (by omega),
          t p (q + 1) (by omega), t (p + 1) (q + 1) (by omega)]
      decide
    have hself : ind3v p q = 0 := ind3v_zero p q (by omega)
    rw [hcount, hself, ind3h_zero p q (by omega)]
    decide

lemma rule_ind3h_off (c d p q : ℤ) :
    ruleOf (fun u v => ind3h (u - c) (v - d)) (c + p) (d + q) = ind3v p q := by
  rw [ruleOf_eq_branchless, branchlessRule_eq_referenceRule, countOf_shift]
  rw [(by ring : c + p - c = p), (by ring : d + q - d = q)]
  exact refRule_ind3h p q

lemma rule_ind3v_off (c d p q : ℤ) :
    ruleOf (fun u v => ind3v (u - c) (v - d)) (c + p) (d + q) = ind3h p q := by
  rw [ruleOf_eq_branchless, branchlessRule_eq_referenceRule, countOf_shift]
  rw [(by ring : c + p - c = p), (by ring : d + q - d = q)]
  exact refRule_ind3v p q

lemma rule_ind3h (c d x y : ℤ) :
    ruleOf (fun u v => ind3h (u - c) (v - d)) x y = ind3v (x - c) (y - d) := by
  have h := rule_ind3h_off c d (x - c) (y - d)
  rw [(by ring : c + (x - c) = x), (by ring : d + (y - d) = y)] at h
  exact h

lemma rule_ind3v (c d x y : ℤ) :
    ruleOf (fun u v => ind3v (u - c) (v - d)) x y = ind3h (x - c) (y - d) := by
  have h := rule_ind3v_off c d (x - c) (y - d)
  rw [(by ring : c + (x - c) = x), (by ring : d + (y - d) = y)] at h
  exact h

lemma hBlinker_data (w h : ℕ) (cx cy x y : ℤ) :
    (hBlinker w h cx cy).data x y = ind3h (x - cx) (y - cy) := by
  unfold hBlinker ind3h
  dsimp only
  split_ifs <;> first | rfl | (exfalso; omega)

lemma imageLoad_hBlinker (wd ht : ℕ) (cx cy : ℤ)
    (hx1 : 1 ≤ cx) (hx2 : cx + 1 < (wd : ℤ)) (hy1 : 1 ≤ cy) (hy2 : cy + 1 < (ht : ℤ))
    (x y : ℤ) :
    imageLoad (hBlinker wd ht cx cy) x y = ind3h (x - cx) (y - cy) := by
  unfold imageLoad
  split_ifs with hin
  · exact hBlinker_data wd ht cx cy x y
  · unfold Grid.inBounds at hin
    rw [show (hBlinker wd ht cx cy).W = wd from rfl,
        show (hBlinker wd ht cx cy).H = ht from rfl] at hin
    rw [ind3h_zero (x - cx) (y - cy) (by omega)]

/-- C7: a horizontal blinker away from the boundary turns into exactly
the vertical 3-cell column about the same centre after one
`simulationTick`, and two ticks return every in-bounds cell of the grid
to its original value (period exactly 2). -/
theorem blinker_period_two (wd ht : ℕ) (cx cy : ℤ)
    (hx1 : 1 ≤ cx) (hx2 : cx + 1 < (wd : ℤ))
    (hy1 : 1 ≤ cy) (hy2 : cy + 1 < (ht : ℤ)) :
    (∀ x y : ℤ, (hBlinker wd ht cx cy).inBounds x y →
      (simulationTick ⟨hBlinker wd ht cx cy, blankGrid wd ht⟩).input.data x y =
        ind3v (x - cx) (y - cy)) ∧
    (∀ x y : ℤ, (hBlinker wd ht cx cy).inBounds x y →
      (simulationTick
        (simulationTick ⟨hBlinker wd ht cx cy, blankGrid wd ht⟩)).input.data x y =
        (hBlinker wd ht cx cy).data x y) := by
  have hload0 := imageLoad_hBlinker wd ht cx cy hx1 hx2 hy1 hy2
  have hk0 : ∀ x y : ℤ,
      kernelCell (hBlinker wd ht cx cy) x y = ind3v (x - cx) (y - cy) := by
    intro x y
    unfold kernelCell
    rw [ruleOf_congr (fun a b => imageLoad (hBlinker wd ht cx cy) a b)
        (fun u v => ind3h (u - cx) (v - cy)) (fun a b => hload0 a b) x y]
    exact rule_ind3h cx cy x y
  have hs1 : ∀ x y : ℤ, (hBlinker wd ht cx cy).inBounds x y →
      (simulationTick ⟨hBlinker wd ht cx cy, blankGrid wd ht⟩).input.data x y =
        ind3v (x - cx) (y - cy) := by
    intro x y hb
    rw [tick_input_data ⟨hBlinker wd ht cx cy, blankGrid wd ht⟩ x y hb]
    exact hk0 x y
  have hload1 : ∀ x y : ℤ,
      imageLoad (simulationTick ⟨hBlinker wd ht cx cy, blankGrid wd ht⟩).input x y =
        ind3v (x - cx) (y - cy) := by
    intro x y
    unfold imageLoad
    split_ifs with hin
    · exact hs1 x y hin
    · unfold Grid.inBounds at hin
      rw [show (simulationTick ⟨hBlinker wd ht cx cy, blankGrid wd ht⟩).input.W = wd
            from rfl,
          show (simulationTick ⟨hBlinker wd ht cx cy, blankGrid wd ht⟩).input.H = ht
            from rfl] at hin
      rw [ind3v_zero (x - cx) (y - cy) (by omega)]
  have hk1 : ∀ x y : ℤ,
      kernelCell (simulationTick ⟨hBlinker wd ht cx cy, blankGrid wd ht⟩).input x y =
        ind3h (x - cx) (y - cy) := by
    intro x y
    unfold kernelCell
    rw [ruleOf_congr
        (fun a b => imageLoad (simulationTick ⟨hBlinker wd ht cx cy, blankGrid wd ht⟩).input a b)
        (fun u v => ind3v (u - cx) (v - cy)) (fun a b => hload1 a b) x y]
    exact rule_ind3v cx cy x y
  refine ⟨hs1, ?_⟩
  intro x y hb
  rw [tick_input_data (simulationTick ⟨hBlinker wd ht cx cy, blankGrid wd ht⟩) x y hb]
  rw [hk1 x y, hBlinker_data wd ht cx cy x y]

/-- C7 witness: the blinker theorem instantiated on a 5 × 5 board with
centre (2, 2), evaluated at the cell (2, 1), which is dead in the
horizontal phase and alive in the vertical phase. -/
theorem blinker_period_two_witness :
    ((1 : ℤ) ≤ 2 ∧ (2 : ℤ) + 1 < ((5 : ℕ) : ℤ)) ∧
    (simulationTick ⟨hBlinker 5 5 2 2, blankGrid 5 5⟩).input.data 2 1 =
      ind3v (2 - 2) (1 - 2) ∧
    ind3v (2 - 2) (1 - 2) = 1 :=
  ⟨⟨by norm_num, by norm_num⟩,
    (blinker_period_two 5 5 2 2 (by norm_num) (by norm_num) (by norm_num)
      (by norm_num)).1 2 1 (by decide),
    by decide⟩

end GOL
